import Mathlib

/-!
Verification of the SchedulifyX JavaScript/TypeScript SDK
(`src/index.ts`), a thin client around one request dispatcher.

The embedding models:
* JSON runtime values (`Json`), with JavaScript truthiness;
* the `SchedulifyX` constructor (`SchedulifyX.construct`);
* the URL query-parameter construction (`URLSearchParams.set` fold);
* the fetch init assembly (headers, truthiness-guarded body);
* the dispatcher `request`, as a function from the outcome of the
  single `fetch` exchange to what the caller's promise settles with:
  the parsed JSON payload, a thrown `SchedulifyXError`, or — on the
  2xx parse-failure path only, whose `return response.json()` is not
  awaited inside the `try` — the raw JavaScript rejection;
* the timeout guard (`AbortController` + `setTimeout`) as a race
  between the network arrival time and the configured timeout;
* the `media.upload` helper as the composition of the
  `getUploadUrl` endpoint with a direct PUT.

JavaScript numbers are modelled as integers (all numbers the SDK
manipulates — statuses, timeouts, counts — are integral).
-/

namespace SchedulifyXSDK

/-- Runtime JSON values, the result of `JSON.parse` / `response.json()`. -/
inductive Json where
  | null
  | bool (b : Bool)
  | num (n : Int)
  | str (s : String)
  | arr (elems : List Json)
  | obj (fields : List (String × Json))

/-- Property access `j.k` on a parsed JSON value (objects from
`JSON.parse` have unique keys, so first-match lookup is exact);
`none` is JavaScript `undefined`. Access on `null` is handled
separately by the caller because it throws in JavaScript. -/
def Json.getField : Json → String → Option Json
  | .obj fields, k => fields.lookup k
  | _, _ => none

/-- JavaScript truthiness of a possibly-`undefined` value:
`undefined`, `null`, `false`, `0` and `""` are falsy, every other
JSON value is truthy. -/
def jsTruthy : Option Json → Bool
  | none => false
  | some .null => false
  | some (.bool b) => b
  | some (.num n) => decide (n ≠ 0)
  | some (.str s) => decide (s ≠ "")
  | some (.arr _) => true
  | some (.obj _) => true

/-- A thrown JavaScript `Error`: its `name` and `message`. -/
structure JsError where
  name : String
  message : String
deriving DecidableEq, Repr

/-- The single error shape raised by the SDK
(`class SchedulifyXError extends Error`). `message` and `code` hold
the runtime values assigned by the constructor (the TypeScript
annotations say `string`, but the constructor arguments are taken
from an unvalidated JSON body, so we keep them as JSON values). -/
structure SchedulifyXError where
  message : Json
  code : Json
  status : Nat
  details : Option Json

/-- Constructor argument: `SchedulifyXConfig | string`. -/
inductive ConfigArg where
  | key (apiKey : String)
  | record (apiKey : String) (baseUrl : Option String) (timeout : Option Nat)

/-- The client's private fields after construction. -/
structure ClientState where
  apiKey : String
  baseUrl : String
  timeout : Nat
deriving DecidableEq, Repr

/-- `new SchedulifyX(config)`: a bare string is the API key with all
defaults; a record uses `config.baseUrl || default` and
`config.timeout || 30000` — JavaScript `||`, which falls back on any
falsy value (`undefined`, but also `""` and `0`). -/
def SchedulifyX.construct : ConfigArg → ClientState
  | .key k => ⟨k, "https://api.schedulifyx.com", 30000⟩
  | .record k b t =>
    ⟨k,
     match b with
     | some s => if s = "" then "https://api.schedulifyx.com" else s
     | none => "https://api.schedulifyx.com",
     match t with
     | some n => if n = 0 then 30000 else n
     | none => 30000⟩

/-- Query-parameter values: `string | number | boolean` (an absent
value is modelled one level up with `Option`). -/
inductive QueryValue where
  | str (s : String)
  | num (n : Int)
  | bool (b : Bool)
deriving DecidableEq, Repr

/-- `String(value)` as applied by `url.searchParams.set(key, String(value))`. -/
def QueryValue.encode : QueryValue → String
  | .str s => s
  | .num n => toString n
  | .bool b => if b then "true" else "false"

/-- `URLSearchParams.set(k, v)`: updates the first entry with key `k`
in place, removes any later entries with that key, and appends if the
key is absent. -/
def setParam : List (String × String) → String → String → List (String × String)
  | [], k, v => [(k, v)]
  | (k0, v0) :: rest, k, v =>
    if k0 = k then (k, v) :: rest.filter (fun p => decide (p.1 ≠ k))
    else (k0, v0) :: setParam rest k v

/-- The query components of the constructed URL: starting from the
search params already present in `new URL(baseUrl + endpoint)`
(`init`, empty for every endpoint of this SDK), the dispatcher folds
over `Object.entries(queryParams)`, calling `set` for each entry whose
value is defined and skipping `undefined` values. -/
def buildParams (init : List (String × String))
    (qp : List (String × Option QueryValue)) : List (String × String) :=
  qp.foldl (fun acc p =>
    match p.2 with
    | none => acc
    | some v => setParam acc p.1 (QueryValue.encode v)) init

/-- The `fetch` init record assembled by the dispatcher, up to JSON
serialization: `body` holds the value handed to `JSON.stringify` (a
platform builtin), or `none` when the `body ? JSON.stringify(body) :
undefined` guard leaves the body out. -/
structure FetchInit where
  method : String
  authorization : String
  contentType : String
  body : Option Json

/-- Assembles the `fetch` options of `request`: bearer header from the
API key, JSON content type, and the truthiness-guarded body. -/
def buildInit (cfg : ClientState) (method : String) (body : Option Json) : FetchInit :=
  { method := method
    authorization := "Bearer " ++ cfg.apiKey
    contentType := "application/json"
    body := if jsTruthy body then body else none }

/-- How the single `fetch` exchange of `request` settles:
either an HTTP response arrived — with its status and the outcome of
`response.json()` (`Except.error` when the body is not valid JSON) —
or the fetch promise rejected with a JavaScript error. -/
inductive FetchOutcome where
  | response (status : Nat) (jsonBody : Except JsError Json)
  | failure (e : JsError)

/-- `response.ok`: status in the range 200–299. -/
def responseOk (status : Nat) : Bool :=
  decide (200 ≤ status) && decide (status < 300)

/-- The `catch` clause of `request` for a thrown value that is not
already a `SchedulifyXError`: an `AbortError` becomes the timeout
error, anything else the generic network error carrying the thrown
error's own message. (The `'Network error'` fallback for non-`Error`
throws is unreachable here: `fetch` and `response.json()` only reject
with `Error` instances.) -/
def normalizeThrown (e : JsError) : SchedulifyXError :=
  if e.name = "AbortError" then
    ⟨.str "Request timeout", .str "timeout", 408, none⟩
  else
    ⟨.str e.message, .str "network_error", 0, none⟩

/-- The non-2xx branch of `request`: `errorData` is the parsed body,
or `{}` when parsing fails (`response.json().catch(() => ({}))`).
The thrown error takes `errorData.error?.message || "HTTP <status>"`,
`errorData.error?.code || 'http_error'`, the response status, and
`errorData.error?.details`. When `errorData` is JSON `null`, the bare
property access `errorData.error` throws a `TypeError`, which the
outer catch normalizes to a network error. -/
def handleErrorResponse (status : Nat) (jsonBody : Except JsError Json) :
    SchedulifyXError :=
  let errorData : Json := match jsonBody with
    | .ok j => j
    | .error _ => .obj []
  match errorData with
  | .null =>
    normalizeThrown ⟨"TypeError", "Cannot read properties of null (reading 'error')"⟩
  | _ =>
    let errField := errorData.getField "error"
    let msgField := errField.bind (fun j => j.getField "message")
    let codeField := errField.bind (fun j => j.getField "code")
    { message := if jsTruthy msgField then msgField.getD .null
                 else .str ("HTTP " ++ toString status)
      code := if jsTruthy codeField then codeField.getD .null
              else .str "http_error"
      status := status
      details := errField.bind (fun j => j.getField "details") }

/-- What one dispatcher call settles with, as seen by the caller:
the parsed body, a thrown `SchedulifyXError`, or a raw JavaScript
rejection. The last arises only on the 2xx parse-failure path:
`return response.json() as Promise<T>` is not awaited inside the
`try`, so the `try` block exits normally with the pending promise and
a later rejection of it bypasses the `catch` clause entirely. -/
inductive DispatchResult where
  | ok (j : Json)
  | sdkError (e : SchedulifyXError)
  | jsRejection (e : JsError)

/-- The dispatcher `request`, as a function of how its single `fetch`
exchange settles: on a 2xx response the parsed JSON body is returned
as-is, and a parse failure there — the un-awaited
`return response.json()` — bypasses the catch clause and surfaces as
the raw rejection; on a non-2xx response the structured error is
raised; a rejected fetch is normalized by the catch clause. -/
def request (outcome : FetchOutcome) : DispatchResult :=
  match outcome with
  | .response status jsonBody =>
    if responseOk status then
      match jsonBody with
      | .ok j => .ok j
      | .error e => .jsRejection e
    else
      .sdkError (handleErrorResponse status jsonBody)
  | .failure e => .sdkError (normalizeThrown e)

/-- The network side of one dispatcher call, abstracted: when (if
ever) the underlying `fetch` would settle, and how. -/
structure NetworkBehavior where
  arrival : Option Nat
  result : FetchOutcome

/-- The rejection produced by `controller.abort()` firing. -/
def abortError : JsError := ⟨"AbortError", "This operation was aborted"⟩

/-- The race set up by `request`: `setTimeout(() => controller.abort(),
this.timeout)` fires at `cfg.timeout`; if the network settles strictly
earlier the timer is cleared and the network outcome stands, otherwise
the abort wins, the in-flight request is torn down, and the fetch
promise rejects with an `AbortError` — the network result is never
delivered. -/
def timedOutcome (cfg : ClientState) (net : NetworkBehavior) : FetchOutcome :=
  match net.arrival with
  | some a => if a < cfg.timeout then net.result else .failure abortError
  | none => .failure abortError

/-- The typed payload of `media.getUploadUrl` (`MediaUploadResponse`). -/
structure MediaUploadResponse where
  uploadUrl : String
  mediaUrl : String
  expiresIn : Nat
deriving DecidableEq, Repr

/-- How the direct `fetch(data.uploadUrl, { method: 'PUT', ... })`
settles: resolved with some HTTP status (never inspected by the
code), or rejected. -/
inductive PutOutcome where
  | resolved (status : Nat)
  | rejected (e : JsError)
deriving DecidableEq, Repr

/-- A failure of `media.upload`: either the `getUploadUrl` call threw
a `SchedulifyXError`, or the raw PUT fetch rejection propagated
unwrapped. -/
inductive UploadFailure where
  | api (e : SchedulifyXError)
  | put (e : JsError)

/-- `media.upload(file, filename, contentType)`: awaits
`getUploadUrl`, PUTs the file to `data.uploadUrl`, and returns
`data.mediaUrl`. `uploadUrlStep` is the settled result of the first
step; `put` gives, per target URL, how the direct PUT settles. -/
def mediaUpload (uploadUrlStep : Except SchedulifyXError MediaUploadResponse)
    (put : String → PutOutcome) : Except UploadFailure String :=
  match uploadUrlStep with
  | .error e => .error (.api e)
  | .ok data =>
    match put data.uploadUrl with
    | .rejected e => .error (.put e)
    | .resolved _ => .ok data.mediaUrl

/-- The entries of a query map that carry a defined value, in order,
with their values `String(...)`-encoded: the reference shape against
which the `URLSearchParams.set` fold is proved. -/
def encodeDefined (qp : List (String × Option QueryValue)) : List (String × String) :=
  qp.filterMap (fun p => p.2.map (fun v => (p.1, v.encode)))

/-! ## Helper lemmas -/

theorem responseOk_eq_false {status : Nat} (h : ¬(200 ≤ status ∧ status < 300)) :
    responseOk status = false := by
  simp only [responseOk, Bool.and_eq_false_iff, decide_eq_false_iff_not]
  omega

theorem responseOk_eq_true {status : Nat} (h1 : 200 ≤ status) (h2 : status < 300) :
    responseOk status = true := by
  simp [responseOk, h1, h2]

theorem setParam_fresh (acc : List (String × String)) (k v : String)
    (h : ∀ p ∈ acc, p.1 ≠ k) : setParam acc k v = acc ++ [(k, v)] := by
  induction acc with
  | nil => rfl
  | cons p rest ih =>
    obtain ⟨k0, v0⟩ := p
    simp only [setParam]
    rw [if_neg (h (k0, v0) (List.mem_cons_self _ _)),
      ih (fun q hq => h q (List.mem_cons_of_mem _ hq))]
    rfl

theorem buildParams_eq (qp : List (String × Option QueryValue)) :
    ∀ init : List (String × String), (qp.map Prod.fst).Nodup →
    (∀ p ∈ init, ∀ q ∈ qp, p.1 ≠ q.1) →
    buildParams init qp = init ++ encodeDefined qp := by
  induction qp with
  | nil => intro init _ _; simp [buildParams, encodeDefined]
  | cons hd rest ih =>
    intro init hnd hdisj
    obtain ⟨k, ov⟩ := hd
    rw [List.map_cons, List.nodup_cons] at hnd
    cases ov with
    | none =>
      have step : buildParams init ((k, none) :: rest) = buildParams init rest := rfl
      rw [step, ih init hnd.2
        (fun p hp q hq => hdisj p hp q (List.mem_cons_of_mem _ hq))]
      rfl
    | some v =>
      have step : buildParams init ((k, some v) :: rest) =
          buildParams (setParam init k v.encode) rest := rfl
      have hfresh : ∀ p ∈ init, p.1 ≠ k := fun p hp =>
        hdisj p hp (k, some v) (List.mem_cons_self _ _)
      rw [step, setParam_fresh init k v.encode hfresh,
        ih (init ++ [(k, v.encode)]) hnd.2 ?_]
      · simp [encodeDefined]
      · intro p hp q hq
        rcases List.mem_append.mp hp with h1 | h1
        · exact hdisj p h1 q (List.mem_cons_of_mem _ hq)
        · have hp1 : p = (k, v.encode) := by simpa using h1
          have : q.1 ∈ rest.map Prod.fst := List.mem_map_of_mem _ hq
          intro heq
          rw [hp1] at heq
          exact hnd.1 (heq ▸ this)

theorem assoc_nodup_value_eq {β : Type} {l : List (String × β)}
    (h : (l.map Prod.fst).Nodup) {k : String} {a b : β}
    (ha : (k, a) ∈ l) (hb : (k, b) ∈ l) : a = b := by
  induction l with
  | nil => cases ha
  | cons p rest ih =>
    rw [List.map_cons, List.nodup_cons] at h
    rcases List.mem_cons.mp ha with h1 | h1 <;> rcases List.mem_cons.mp hb with h2 | h2
    · exact congrArg Prod.snd (h1.trans h2.symm)
    · exfalso
      apply h.1
      have hm : k ∈ rest.map Prod.fst := List.mem_map.mpr ⟨(k, b), h2, rfl⟩
      rw [← h1]
      exact hm
    · exfalso
      apply h.1
      have hm : k ∈ rest.map Prod.fst := List.mem_map.mpr ⟨(k, a), h1, rfl⟩
      rw [← h2]
      exact hm
    · exact ih h.2 h1 h2

theorem countP_encodeDefined_zero {qp : List (String × Option QueryValue)} {k : String}
    (h : k ∉ qp.map Prod.fst) :
    (encodeDefined qp).countP (fun p => p.1 == k) = 0 := by
  induction qp with
  | nil => rfl
  | cons hd rest ih =>
    obtain ⟨k0, ov⟩ := hd
    rw [List.map_cons] at h
    have hk0 : k0 ≠ k := fun heq => h (heq ▸ List.mem_cons_self _ _)
    have hrest : k ∉ rest.map Prod.fst := fun hm => h (List.mem_cons_of_mem _ hm)
    cases ov with
    | none => exact ih hrest
    | some v =>
      have step : encodeDefined ((k0, some v) :: rest) =
          (k0, v.encode) :: encodeDefined rest := rfl
      rw [step, List.countP_cons]
      simp [hk0, ih hrest]

theorem countP_encodeDefined_one {qp : List (String × Option QueryValue)}
    (hnd : (qp.map Prod.fst).Nodup) {k : String} {w : QueryValue}
    (h : (k, some w) ∈ qp) :
    (encodeDefined qp).countP (fun p => p.1 == k) = 1 := by
  induction qp with
  | nil => cases h
  | cons hd rest ih =>
    obtain ⟨k0, ov⟩ := hd
    rw [List.map_cons, List.nodup_cons] at hnd
    rcases List.mem_cons.mp h with h1 | h1
    · injection h1 with hk hv
      subst hk
      subst hv
      have step : encodeDefined ((k, some w) :: rest) =
          (k, w.encode) :: encodeDefined rest := rfl
      rw [step, List.countP_cons]
      simp [countP_encodeDefined_zero hnd.1]
    · have hk0 : k0 ≠ k := by
        intro heq
        apply hnd.1
        rw [heq]
        exact List.mem_map.mpr ⟨(k, some w), h1, rfl⟩
      cases ov with
      | none => exact ih hnd.2 h1
      | some v =>
        have step : encodeDefined ((k0, some v) :: rest) =
            (k0, v.encode) :: encodeDefined rest := rfl
        rw [step, List.countP_cons]
        simp [hk0, ih hnd.2 h1]

/-! ## Claim theorems -/

/-- C1: a dispatcher call whose underlying fetch is aborted by the
configured timeout (the network does not settle strictly before
`cfg.timeout`) never sees the network result — the settled outcome is
the `AbortError` rejection, whatever `net.result` would have been —
and the call fails with a `SchedulifyXError` of code `"timeout"` and
status 408. -/
theorem request_timeout_yields_408 (cfg : ClientState) (net : NetworkBehavior)
    (h : ∀ a, net.arrival = some a → cfg.timeout ≤ a) :
    timedOutcome cfg net = .failure abortError ∧
    request (timedOutcome cfg net) =
      .sdkError ⟨.str "Request timeout", .str "timeout", 408, none⟩ := by
  have h1 : timedOutcome cfg net = .failure abortError := by
    unfold timedOutcome
    cases harr : net.arrival with
    | none => rfl
    | some a =>
      show (if a < cfg.timeout then net.result else FetchOutcome.failure abortError) =
        FetchOutcome.failure abortError
      have := h a harr
      rw [if_neg (by omega)]
  refine ⟨h1, ?_⟩
  rw [h1]
  simp [request, normalizeThrown, abortError]

/-- Witness for C1: with the default 30000 ms timeout, a response that
would only arrive at 30000 ms is aborted and surfaced as the timeout
error. -/
theorem request_timeout_yields_408_witness :
    request (timedOutcome (SchedulifyX.construct (.key "k"))
        ⟨some 30000, .response 200 (.ok .null)⟩) =
      .sdkError ⟨.str "Request timeout", .str "timeout", 408, none⟩ :=
  (request_timeout_yields_408 (SchedulifyX.construct (.key "k"))
      ⟨some 30000, .response 200 (.ok .null)⟩
      (fun a ha => by injection ha with h2; subst h2; decide)).2

/-- C3: a non-2xx response whose body cannot be parsed as JSON yields
an error with code `"http_error"`, message `"HTTP <status>"`, the
response's HTTP status, and no details. -/
theorem request_unparseable_body (status : Nat) (e : JsError)
    (h : ¬ (200 ≤ status ∧ status < 300)) :
    request (.response status (.error e)) =
      .sdkError ⟨.str ("HTTP " ++ toString status), .str "http_error", status, none⟩ := by
  simp [request, responseOk_eq_false h, handleErrorResponse, Json.getField, jsTruthy]

/-- Witness for C3: a 500 response with a body that fails JSON parsing. -/
theorem request_unparseable_body_witness :
    request (.response 500 (.error ⟨"SyntaxError", "Unexpected end of JSON input"⟩)) =
      .sdkError ⟨.str ("HTTP " ++ toString 500), .str "http_error", 500, none⟩ :=
  request_unparseable_body 500 ⟨"SyntaxError", "Unexpected end of JSON input"⟩ (by decide)

/-- C6: on a success (2xx) status the parsed JSON response body is
returned to the caller unmodified. -/
theorem request_success_identity (status : Nat) (j : Json)
    (h1 : 200 ≤ status) (h2 : status < 300) :
    request (.response status (.ok j)) = .ok j := by
  simp [request, responseOk_eq_true h1 h2]

/-- Witness for C6: a 200 response with a concrete JSON object body. -/
theorem request_success_identity_witness :
    request (.response 200 (.ok (.obj [("data", .str "x")]))) =
      .ok (.obj [("data", .str "x")]) :=
  request_success_identity 200 (.obj [("data", .str "x")]) (by decide) (by decide)

/-- C8: when `getUploadUrl` succeeds and the direct PUT fetch resolves
with any HTTP status whatsoever (for example 403), `media.upload`
still returns `data.mediaUrl` and raises no error: the PUT response
status is never inspected. -/
theorem upload_ignores_put_status (data : MediaUploadResponse)
    (put : String → PutOutcome) (s : Nat)
    (h : put data.uploadUrl = .resolved s) :
    mediaUpload (.ok data) put = .ok data.mediaUrl := by
  simp [mediaUpload, h]

/-- Witness for C8: the PUT resolves with HTTP 403, yet `upload`
returns the media URL. -/
theorem upload_ignores_put_status_witness :
    mediaUpload (.ok ⟨"u", "m", 60⟩) (fun _ => .resolved 403) = .ok "m" :=
  upload_ignores_put_status ⟨"u", "m", 60⟩ (fun _ => .resolved 403) 403 rfl

/-- C9 counterexample: on a 200 response whose body fails JSON
parsing, the caller's promise settles with the raw `SyntaxError`
rejection — `return response.json()` is not awaited inside the `try`,
so the rejection bypasses the catch clause — and NOT with the
`SchedulifyXError` of code `"network_error"` and status 0 that the
claim asserts. -/
theorem request_parse_rejection_bypasses_catch :
    request (.response 200 (.error ⟨"SyntaxError", "Unexpected token"⟩)) =
      .jsRejection ⟨"SyntaxError", "Unexpected token"⟩ ∧
    request (.response 200 (.error ⟨"SyntaxError", "Unexpected token"⟩)) ≠
      .sdkError ⟨.str "Unexpected token", .str "network_error", 0, none⟩ :=
  ⟨rfl, fun h => DispatchResult.noConfusion h⟩

/-- C9 amended: a 2xx response whose body is not valid JSON surfaces
the JSON-parse rejection to the caller raw — the un-awaited
`return response.json()` escapes the catch clause — so no
`SchedulifyXError` (of any code) is produced on this path. -/
theorem request_2xx_parse_rejection_raw (status : Nat) (e : JsError)
    (h1 : 200 ≤ status) (h2 : status < 300) :
    request (.response status (.error e)) = .jsRejection e := by
  simp [request, responseOk_eq_true h1 h2]

/-- Witness for C9 (amended): a 200 response with an unparseable body
settles with the raw parse error. -/
theorem request_2xx_parse_rejection_raw_witness :
    request (.response 200 (.error ⟨"SyntaxError", "Unexpected token < in JSON"⟩)) =
      .jsRejection ⟨"SyntaxError", "Unexpected token < in JSON"⟩ :=
  request_2xx_parse_rejection_raw 200 ⟨"SyntaxError", "Unexpected token < in JSON"⟩
    (by decide) (by decide)

/-- C10: body presence is tested by JavaScript truthiness, so a
defined but falsy body (`0`, `""`, `false`) is not sent at all, while
any truthy body is passed to serialization. -/
theorem falsy_body_not_sent (cfg : ClientState) (m : String) (b : Json) :
    (buildInit cfg m (some (.num 0))).body = none ∧
    (buildInit cfg m (some (.str ""))).body = none ∧
    (buildInit cfg m (some (.bool false))).body = none ∧
    (jsTruthy (some b) = true → (buildInit cfg m (some b)).body = some b) := by
  refine ⟨rfl, rfl, rfl, fun hb => ?_⟩
  simp [buildInit, hb]

/-- Witness for C10: a truthy body is kept. -/
theorem falsy_body_not_sent_witness :
    (buildInit ⟨"k", "u", 1⟩ "POST" (some (.str "x"))).body = some (.str "x") :=
  (falsy_body_not_sent ⟨"k", "u", 1⟩ "POST" (.str "x")).2.2.2 (by decide)

/-- A structured error body whose `code` and `message` fields are the
empty string. -/
def emptyFieldErrorBody : Json :=
  .obj [("error", .obj [("code", .str ""), ("message", .str ""), ("details", .obj [])])]

/-- C2 counterexample: on a 400 response whose structured body has
`code` and `message` equal to the empty string, the raised error does
NOT carry those fields exactly — both falsy fields fall back
(`"http_error"` / `"HTTP 400"`), refuting the claim's "including when
a field is the empty string". -/
theorem request_empty_error_fields_fall_back :
    request (.response 400 (.ok emptyFieldErrorBody)) =
      .sdkError ⟨.str "HTTP 400", .str "http_error", 400, some (.obj [])⟩ ∧
    Json.str "http_error" ≠ Json.str "" ∧
    Json.str "HTTP 400" ≠ Json.str "" := by
  refine ⟨rfl, ?_, ?_⟩ <;> intro hcontra <;> injection hcontra <;> simp_all

/-- C2 amended: on a non-2xx response whose body is
`{error:{code,message,details}}` with `code` and `message` truthy
(non-empty strings), the raised error's code, message and details
equal the body's fields exactly; an empty-string `code` or `message`
instead falls back to `"http_error"` / `"HTTP <status>"` (shown by the
counterexample). -/
theorem request_structured_error_body (status : Nat) (c m : String) (d : Json)
    (hok : ¬ (200 ≤ status ∧ status < 300)) (hc : c ≠ "") (hm : m ≠ "") :
    request (.response status (.ok (.obj [("error",
      .obj [("code", .str c), ("message", .str m), ("details", d)])]))) =
      .sdkError ⟨.str m, .str c, status, some d⟩ := by
  simp [request, responseOk_eq_false hok, handleErrorResponse, Json.getField,
    jsTruthy, List.lookup, hc, hm]

/-- Witness for C2 (amended): a 404 response with a fully populated
structured error body. -/
theorem request_structured_error_body_witness :
    request (.response 404 (.ok (.obj [("error",
      .obj [("code", .str "not_found"), ("message", .str "Post missing"),
        ("details", .null)])]))) =
      .sdkError ⟨.str "Post missing", .str "not_found", 404, some .null⟩ :=
  request_structured_error_body 404 "not_found" "Post missing" .null
    (by decide) (by decide) (by decide)

/-- C4: with the distinct keys of a JavaScript object literal, a key
mapped to `undefined` contributes nothing to the constructed URL's
query components, and a key with a defined value appears exactly once,
with the value `String(...)`-encoded. -/
theorem query_param_construction (qp : List (String × Option QueryValue))
    (hnd : (qp.map Prod.fst).Nodup) (k : String) :
    ((k, (none : Option QueryValue)) ∈ qp → ∀ v, (k, v) ∉ buildParams [] qp) ∧
    (∀ w : QueryValue, (k, some w) ∈ qp →
      (k, w.encode) ∈ buildParams [] qp ∧
      (buildParams [] qp).countP (fun p => p.1 == k) = 1) := by
  have hbp : buildParams [] qp = encodeDefined qp := by
    rw [buildParams_eq qp [] hnd (fun p hp => absurd hp (List.not_mem_nil p))]
    rfl
  rw [hbp]
  constructor
  · intro hmem v hv
    rcases List.mem_filterMap.mp hv with ⟨⟨k0, ov⟩, hin, hfv⟩
    cases ov with
    | none => exact Option.noConfusion hfv
    | some w =>
      have hk : k0 = k := congrArg Prod.fst (Option.some.inj hfv)
      subst hk
      exact Option.noConfusion (assoc_nodup_value_eq hnd hmem hin)
  · intro w hmem
    refine ⟨List.mem_filterMap.mpr ⟨(k, some w), hmem, rfl⟩, countP_encodeDefined_one hnd hmem⟩

/-- Witness for C4: in `{a: 1, b: undefined}` the key `b` is absent
from the query and `a` appears once as `"1"`. -/
theorem query_param_construction_witness :
    ("a", QueryValue.encode (.num 1)) ∈
      buildParams [] [("a", some (.num 1)), ("b", none)] ∧
    (buildParams [] [("a", some (.num 1)), ("b", none)]).countP
      (fun p => p.1 == "a") = 1 ∧
    (∀ v, ("b", v) ∉ buildParams [] [("a", some (.num 1)), ("b", none)]) :=
  ⟨((query_param_construction [("a", some (.num 1)), ("b", none)] (by decide) "a").2
      (.num 1) (by decide)).1,
   ((query_param_construction [("a", some (.num 1)), ("b", none)] (by decide) "a").2
      (.num 1) (by decide)).2,
   (query_param_construction [("a", some (.num 1)), ("b", none)] (by decide) "b").1
      (by decide)⟩

/-- C5 counterexample: constructing with `{apiKey: "k", timeout: 0}`
does not honor the supplied timeout — JavaScript `||` treats 0 as
absent and the timeout ends up 30000, refuting "uses the record's
value whenever it is supplied". -/
theorem construct_zero_timeout_not_honored :
    (SchedulifyX.construct (.record "k" none (some 0))).timeout = 30000 ∧
    (SchedulifyX.construct (.record "k" none (some 0))).timeout ≠ 0 := by
  exact ⟨rfl, by decide⟩

/-- C5 amended: a bare API-key string sets the key and leaves base URL
`"https://api.schedulifyx.com"` and timeout 30000; a configuration
record sets the key from the record and, for base URL and timeout,
uses the record's value whenever it is supplied and truthy (non-empty
string, nonzero number), falling back to the default when the field is
absent, the empty string, or 0. -/
theorem construct_spec (k : String) (b : Option String) (t : Option Nat) :
    SchedulifyX.construct (.key k) =
      ⟨k, "https://api.schedulifyx.com", 30000⟩ ∧
    (SchedulifyX.construct (.record k b t)).apiKey = k ∧
    ((b = none ∨ b = some "") →
      (SchedulifyX.construct (.record k b t)).baseUrl = "https://api.schedulifyx.com") ∧
    (∀ s, b = some s → s ≠ "" →
      (SchedulifyX.construct (.record k b t)).baseUrl = s) ∧
    ((t = none ∨ t = some 0) →
      (SchedulifyX.construct (.record k b t)).timeout = 30000) ∧
    (∀ n, t = some n → n ≠ 0 →
      (SchedulifyX.construct (.record k b t)).timeout = n) := by
  refine ⟨rfl, rfl, ?_, ?_, ?_, ?_⟩
  · rintro (rfl | rfl) <;> simp [SchedulifyX.construct]
  · rintro s rfl hs
    simp [SchedulifyX.construct, hs]
  · rintro (rfl | rfl) <;> simp [SchedulifyX.construct]
  · rintro n rfl hn
    simp [SchedulifyX.construct, hn]

/-- Witness for C5 (amended): truthy overrides are honored. -/
theorem construct_spec_witness :
    (SchedulifyX.construct (.record "k" (some "https://x.example") (some 5))).baseUrl =
      "https://x.example" ∧
    (SchedulifyX.construct (.record "k" (some "https://x.example") (some 5))).timeout = 5 :=
  ⟨(construct_spec "k" (some "https://x.example") (some 5)).2.2.2.1
      "https://x.example" rfl (by decide),
   (construct_spec "k" (some "https://x.example") (some 5)).2.2.2.2.2
      5 rfl (by decide)⟩

/-- C7: `media.upload` is exactly the two-step composition — it
succeeds with `data.mediaUrl` precisely when `getUploadUrl` succeeded
with `data` and the direct PUT to `data.uploadUrl` resolved, and each
step's failure propagates unchanged, with no other branching. -/
theorem upload_two_step_composition
    (step : Except SchedulifyXError MediaUploadResponse)
    (put : String → PutOutcome) :
    (∀ url, mediaUpload step put = .ok url ↔
      ∃ data, step = .ok data ∧ (∃ s, put data.uploadUrl = .resolved s) ∧
        url = data.mediaUrl) ∧
    (∀ e, mediaUpload step put = .error (.api e) ↔ step = .error e) ∧
    (∀ je, mediaUpload step put = .error (.put je) ↔
      ∃ data, step = .ok data ∧ put data.uploadUrl = .rejected je) := by
  cases step with
  | error e0 =>
    refine ⟨fun url => ?_, fun e => ?_, fun je => ?_⟩ <;> simp [mediaUpload]
  | ok data0 =>
    cases hput : put data0.uploadUrl with
    | resolved s0 =>
      refine ⟨fun url => ?_, fun e => ?_, fun je => ?_⟩
      · simp [mediaUpload, hput]
        tauto
      · simp [mediaUpload, hput]
      · simp [mediaUpload, hput]
    | rejected e1 =>
      refine ⟨fun url => ?_, fun e => ?_, fun je => ?_⟩ <;>
        simp [mediaUpload, hput]

/-- Witness for C7: a successful two-step run returns the media URL. -/
theorem upload_two_step_composition_witness :
    mediaUpload (.ok ⟨"up", "med", 60⟩) (fun _ => .resolved 200) = .ok "med" :=
  ((upload_two_step_composition (.ok ⟨"up", "med", 60⟩) (fun _ => .resolved 200)).1
      "med").mpr ⟨⟨"up", "med", 60⟩, rfl, ⟨200, rfl⟩, rfl⟩

end SchedulifyXSDK
